import Mathlib

/-!
Verification of the datasource proxy middleware
(`internal/api/core/middleware/proxy.go`) of the Perses API server.

The Go code is shallowly embedded: every function of the middleware is
translated into an executable Lean definition over explicit data.  External
collaborators that are not part of the repository snapshot (the DAOs, the
`crypto.Crypto` capability, `datasourceHTTP.ValidateAndExtract` and
prometheus' `config.NewTLSConfig`) are modelled as explicit parameters or as
definitions marked `Modelled from the spec:`.

The three path matchers are Go regular expressions; their leftmost, greedy,
non-overlapping `FindAllStringSubmatch` behaviour on the three concrete
patterns is embedded by a direct scanning function (`scanAux`): the patterns
are sequences of literal segments separated by nonempty runs of name
characters, followed by an optional `(/.*)?` group (`.` in Go matches any
character except a newline), so greedy matching never needs to backtrack.
-/

set_option autoImplicit false

namespace PersesProxy

/-- An `echo.NewHTTPError`: HTTP status code plus client-visible message. -/
structure HTTPError where
  status : Nat
  message : String
deriving DecidableEq

/-- Go `fmt.Sprintf` `%q` verb on the identifier/path strings appearing in the
proxy error messages (none of which need escaping): wrap in double quotes. -/
def goQuote (s : String) : String := "\"" ++ s ++ "\""

/-! ## Path classification (`globalProxyMatcher` / `projectProxyMatcher` /
`dashboardProxyMatcher` and the three `extract…AndPath` functions) -/

/-- The character class `[a-zA-Z-0-9_-]` of the `{name}` capture groups. -/
def nameChar (c : Char) : Bool :=
  ('a' ≤ c && c ≤ 'z') || ('A' ≤ c && c ≤ 'Z') || ('0' ≤ c && c ≤ '9') || c = '_' || c = '-'

/-- Character admitted by `.` in a Go regular expression: anything but `\n`. -/
def notNL (c : Char) : Bool := c ≠ '\n'

/-- Drop a literal regex segment from the front of the input; `none` if the
input does not start with the literal. -/
def dropLit : List Char → List Char → Option (List Char)
  | [], s => some s
  | _ :: _, [] => none
  | l :: ls, c :: cs => if c = l then dropLit ls cs else none

/-- Match, at the current position, the alternating literal/`[cls]+` part of
one of the three proxy patterns: `lits` are the literal segments, each
followed by one nonempty greedy run of `nameChar`s (a capture group).
Returns the captured groups and the input right after the last group.
Greedy matching is exact here because no literal starts with a `nameChar`. -/
def tryMatchSegs : List (List Char) → List Char → Option (List (List Char) × List Char)
  | [], s => some ([], s)
  | lit :: lits, s =>
    match dropLit lit s with
    | none => none
    | some s1 =>
      let nm := s1.takeWhile nameChar
      if nm.isEmpty then none
      else
        match tryMatchSegs lits (s1.dropWhile nameChar) with
        | none => none
        | some (nms, rest) => some (nm :: nms, rest)

/-- The trailing `(/.*)?` group: if the remaining input starts with `/`, the
group greedily captures the `/` and everything up to (not including) the next
newline; otherwise the group is empty.  Returns (group, remaining input). -/
def optRestGroup : List Char → List Char × List Char
  | '/' :: t => ('/' :: t.takeWhile notNL, t.dropWhile notNL)
  | s => ([], s)

/-- One full pattern match attempt at the current position: the literal/name
segments, then the optional rest group.  Returns (captured names, rest group,
input after the whole match). -/
def tryFullMatch (lits : List (List Char)) (s : List Char) :
    Option (List (List Char) × List Char × List Char) :=
  match tryMatchSegs lits s with
  | none => none
  | some (nms, s1) =>
    let (rg, rem) := optRestGroup s1
    some (nms, rg, rem)

/-- Scan of `FindAllStringSubmatch(s, -1)`: try the pattern at every position
from left to right, collecting non-overlapping matches and resuming after
each match.  The fuel argument bounds the recursion; `scanMatches` supplies
`s.length`, which suffices since every step consumes at least one character. -/
def scanAux (lits : List (List Char)) : Nat → List Char → List (List (List Char) × List Char)
  | 0, _ => []
  | _ + 1, [] => []
  | fuel + 1, c :: tail =>
    match tryFullMatch lits (c :: tail) with
    | some (nms, rg, rem) => (nms, rg) :: scanAux lits fuel rem
    | none => scanAux lits fuel tail

/-- All matches of the pattern given by `lits` in `s`, with their captures. -/
def scanMatches (lits : List (List Char)) (s : List Char) :
    List (List (List Char) × List Char) :=
  scanAux lits s.length s

/-- Literal segments of `globalProxyMatcher`:
`/proxy/globaldatasources/([a-zA-Z-0-9_-]+)(/.*)?`. -/
def globalLits : List (List Char) := ["/proxy/globaldatasources/".toList]

/-- Literal segments of `projectProxyMatcher`:
`/proxy/projects/([a-zA-Z-0-9_-]+)/datasources/([a-zA-Z-0-9_-]+)(/.*)?`. -/
def projectLits : List (List Char) :=
  ["/proxy/projects/".toList, "/datasources/".toList]

/-- Literal segments of `dashboardProxyMatcher`:
`/proxy/projects/(…)/dashboards/(…)/datasources/(…)(/.*)?`. -/
def dashboardLits : List (List Char) :=
  ["/proxy/projects/".toList, "/dashboards/".toList, "/datasources/".toList]

/-- The client-visible error when classification does not produce exactly one
match (Go: `http.StatusBadGateway`). -/
def malformedErr : HTTPError :=
  ⟨502, "unable to forward the request to the datasource, request not properly formatted"⟩

/-- Embedding of `extractGlobalDatasourceAndPath`: exactly one match required
(`len(matchingGroups) > 1 || len(matchingGroups) == 0` rejects; the
`len(matchingGroups[0]) <= 1` guard is vacuous since a Go submatch slice for
this pattern always has length 3); the forwarded path defaults to `/` when
the rest group is empty. -/
def extractGlobalDatasourceAndPath (requestPath : String) :
    Except HTTPError (String × String) :=
  match scanMatches globalLits requestPath.toList with
  | [(names, restGroup)] =>
    let dtsName := String.mk (names.getD 0 [])
    let path := if restGroup.isEmpty then "/" else String.mk restGroup
    .ok (dtsName, path)
  | _ => .error malformedErr

/-- Embedding of `extractProjectDatasourceAndPath`. -/
def extractProjectDatasourceAndPath (requestPath : String) :
    Except HTTPError (String × String × String) :=
  match scanMatches projectLits requestPath.toList with
  | [(names, restGroup)] =>
    let projectName := String.mk (names.getD 0 [])
    let dtsName := String.mk (names.getD 1 [])
    let path := if restGroup.isEmpty then "/" else String.mk restGroup
    .ok (projectName, dtsName, path)
  | _ => .error malformedErr

/-- Embedding of `extractProjectDashboardDatasourceAndPath`. -/
def extractProjectDashboardDatasourceAndPath (requestPath : String) :
    Except HTTPError (String × String × String × String) :=
  match scanMatches dashboardLits requestPath.toList with
  | [(names, restGroup)] =>
    let projectName := String.mk (names.getD 0 [])
    let dashboardName := String.mk (names.getD 1 [])
    let dtsName := String.mk (names.getD 2 [])
    let path := if restGroup.isEmpty then "/" else String.mk restGroup
    .ok (projectName, dashboardName, dtsName, path)
  | _ => .error malformedErr

/-- Embedding of `globalProxyMatcher.MatchString`. -/
def matchStringGlobal (s : String) : Bool :=
  !(scanMatches globalLits s.toList).isEmpty

/-- Embedding of `projectProxyMatcher.MatchString`. -/
def matchStringProject (s : String) : Bool :=
  !(scanMatches projectLits s.toList).isEmpty

/-- Embedding of `dashboardProxyMatcher.MatchString`. -/
def matchStringDashboard (s : String) : Bool :=
  !(scanMatches dashboardLits s.toList).isEmpty

/-! ## Requests and headers -/

/-- The outgoing `*http.Request` as the proxy observes and mutates it:
method, URL path and URL host, the `Host` field (sent as the `Host` header
under HTTP/1) and the header map.  Headers are a key-value association list
with Go's `Header.Set` replace-semantics; all keys used by the middleware are
written in Go's canonical MIME form, which both `Header.Set` and `Header.Get`
normalise to, so plain string equality on keys is exact. -/
structure Request where
  method : String
  urlPath : String
  urlHost : String
  host : String
  headers : List (String × String)
deriving DecidableEq

/-- Go `http.Header.Get`: first value for the key, `""` when absent. -/
def headerGet (hs : List (String × String)) (k : String) : String :=
  match hs.find? (fun p => p.1 == k) with
  | some p => p.2
  | none => ""

/-- Go `http.Header.Set`: replace every value stored under the key. -/
def headerSet (hs : List (String × String)) (k v : String) : List (String × String) :=
  hs.filter (fun p => p.1 != k) ++ [(k, v)]

/-- The slice of `echo.Context` the middleware reads: the inbound request,
`c.RealIP()` and `c.Scheme()`. -/
structure Ctx where
  req : Request
  realIP : String
  scheme : String

/-- Canonical form of `echo.HeaderXRealIP`. -/
def hdrXRealIP : String := "X-Real-Ip"

/-- Canonical form of `echo.HeaderXForwardedProto`. -/
def hdrXForwardedProto : String := "X-Forwarded-Proto"

/-! ## Base64 (Go `encoding/base64.StdEncoding`, used by `SetBasicAuth`) -/

/-- The standard base64 alphabet. -/
def base64Table : List Char :=
  "ABCDEFGHIJKLMNOPQRSTUVWXYZabcdefghijklmnopqrstuvwxyz0123456789+/".toList

/-- Character for one 6-bit value. -/
def b64Char (n : Nat) : Char := base64Table.getD n 'A'

/-- Standard base64 of a byte sequence, with `=` padding. -/
def base64Chunks : List Nat → List Char
  | [] => []
  | [b1] => [b64Char (b1 / 4), b64Char (b1 % 4 * 16), '=', '=']
  | [b1, b2] => [b64Char (b1 / 4), b64Char (b1 % 4 * 16 + b2 / 16), b64Char (b2 % 16 * 4), '=']
  | b1 :: b2 :: b3 :: t =>
    b64Char (b1 / 4) :: b64Char (b1 % 4 * 16 + b2 / 16) ::
      b64Char (b2 % 16 * 4 + b3 / 64) :: b64Char (b3 % 64) :: base64Chunks t

/-- Byte values of an ASCII string (the UTF-8 bytes of the credential strings
handled here; `SetBasicAuth` operates on the raw bytes). -/
def asciiBytes (s : String) : List Nat := s.toList.map Char.toNat

/-- Go `base64.StdEncoding.EncodeToString` on an ASCII string's bytes. -/
def base64Encode (s : String) : String := String.mk (base64Chunks (asciiBytes s))

/-! ## The data model: secrets and the HTTP datasource configuration.

`v1.SecretSpec`, `datasourceHTTP.Config` and the plugin envelope live in
`pkg/model/api/v1`, which is not part of the source snapshot; they are
modelled from the spec (SecretMaterial / DatasourceConfig, section 3). -/

/-- Modelled from the spec: the basic-auth block of `SecretMaterial` —
username plus a password reference; `GetPassword` resolves the reference
(inline value or file) and may fail, which we embed as a stored
`Except`-valued resolution result. -/
structure BasicAuth where
  username : String
  getPassword : Except String String

/-- Modelled from the spec: the bearer/custom authorization block of
`SecretMaterial` — a scheme (`Type`) plus a credential reference resolved by
`GetCredentials`. -/
structure Authorization where
  type : String
  getCredentials : Except String String

/-- Modelled from the spec: the TLS block of `SecretMaterial` — CA, client
cert and key (each inline or a file path), server name override, skip-verify
flag. -/
structure SecretTLSConfig where
  ca : String
  cert : String
  key : String
  caFile : String
  certFile : String
  keyFile : String
  serverName : String
  insecureSkipVerify : Bool
deriving DecidableEq

/-- Modelled from the spec: `v1.SecretSpec` (SecretMaterial): optional
basic-auth, optional bearer/custom authorization, TLS settings. -/
structure SecretSpec where
  basicAuth : Option BasicAuth
  authorization : Option Authorization
  tlsConfig : SecretTLSConfig

/-- The upstream URL as used by the proxy: its host and its base path
(`url.URL.Host` / `url.URL.Path`). -/
structure URL where
  host : String
  path : String

/-- One entry of the datasource allow-list: an HTTP method and an endpoint
pattern.  The pattern is a Go regular expression; we embed it as the exact
predicate it decides on a candidate string, and apply it with
`FindAllString`'s match-anywhere semantics (`matchesAnywhereB`). -/
structure AllowedEndpoint where
  method : String
  endpointPattern : List Char → Bool

/-- Modelled from the spec: `datasourceHTTP.Config` (DatasourceConfig):
upstream base URL, static headers, optional secret name, allow-list. -/
structure Config where
  url : URL
  secret : String
  allowedEndpoints : List AllowedEndpoint
  headers : List (String × String)

/-- Modelled from the spec: the kind-tagged plugin-specific spec of a
datasource; only the HTTP kind is supported by the proxy. -/
inductive PluginSpec where
  | http (cfg : Config)
  | unsupported (kind : String)

/-- The plugin envelope `spec.Plugin` (`Kind` plus the kind-tagged spec). -/
structure Plugin where
  kind : String
  spec : PluginSpec

/-- `v1.DatasourceSpec` as the proxy consumes it. -/
structure DatasourceSpec where
  plugin : Plugin

/-- The dashboard entity slice the proxy reads: `db.Spec.Datasources`, a map
from datasource key to embedded datasource spec. -/
structure Dashboard where
  datasources : List (String × DatasourceSpec)

/-- Map lookup `db.Spec.Datasources[name]`. -/
def assocFind (l : List (String × DatasourceSpec)) (k : String) : Option DatasourceSpec :=
  match l.find? (fun p => p.1 == k) with
  | some p => some p.2
  | none => none

/-- Modelled from the spec: `datasourceHTTP.ValidateAndExtract` (package
`pkg/model/api/v1/datasource/http`, not in the source snapshot) validates the
generic plugin spec and extracts the HTTP config; an unsupported plugin kind
or invalid config yields an error. -/
def ValidateAndExtract : PluginSpec → Except String Config
  | .http cfg => .ok cfg
  | .unsupported kind => .error ("unsupported plugin kind " ++ kind)

/-! ## Regex match-anywhere semantics of `FindAllString` for the allow-list -/

/-- Whether the pattern accepts some prefix of the input (a match starting at
the current position). -/
def matchesStartingHere (pat : List Char → Bool) : List Char → Bool
  | [] => pat []
  | c :: t => pat [] || matchesStartingHere (fun u => pat (c :: u)) t

/-- Whether the pattern accepts some contiguous substring of the input: this
is exactly when Go's `FindAllString(s, -1)` returns a non-empty slice. -/
def matchesAnywhereB (pat : List Char → Bool) : List Char → Bool
  | [] => pat []
  | c :: t => matchesStartingHere pat (c :: t) || matchesAnywhereB pat t

/-! ## TLS configuration and transport (`prepareTLSConfig` / `prepareTransport`) -/

/-- TLS protocol version number of TLS 1.2 (`tls.VersionTLS12`,
`promConfig.TLSVersions["TLS12"]` = 0x0303). -/
def versionTLS12 : Nat := 771

/-- TLS protocol version number of TLS 1.3 (`tls.VersionTLS13`,
`promConfig.TLSVersions["TLS13"]` = 0x0304). -/
def versionTLS13 : Nat := 772

/-- The `promConfig.TLSConfig` record handed to prometheus'
`config.NewTLSConfig`, exactly as `prepareTLSConfig` fills it in. -/
structure PromTLSConfig where
  ca : String
  cert : String
  key : String
  caFile : String
  certFile : String
  keyFile : String
  serverName : String
  insecureSkipVerify : Bool
  minVersion : Nat
  maxVersion : Nat
deriving DecidableEq

/-- The observable content of a Go `tls.Config`.  `hasCustomRootCAs = false`
means `RootCAs` is nil, i.e. the system trust store is used;
`hasClientCert = false` means no client certificate is configured.
`maxVersion = 0` means unset. -/
structure GoTLSConfig where
  minVersion : Nat
  maxVersion : Nat
  insecureSkipVerify : Bool
  serverName : String
  hasCustomRootCAs : Bool
  hasClientCert : Bool
deriving DecidableEq

/-- The Go zero-value `tls.Config` with only `MinVersion` set, as built by
`prepareTLSConfig` when no secret is attached: system trust store, no client
cert, no overrides. -/
def defaultTLSConfig : GoTLSConfig := ⟨versionTLS12, 0, false, "", false, false⟩

/-- The type of prometheus' `config.NewTLSConfig` (external library, treated
as an abstract collaborator): it builds a `tls.Config` from the record, or
fails (for instance on an unreadable CA file). -/
def NewTLSConfigFn : Type := PromTLSConfig → Except String GoTLSConfig

/-- The per-request proxy descriptor `httpProxy`: validated HTTP config,
resolved decrypted secret (nullable) and forwarded path. -/
structure HttpProxy where
  config : Config
  secret : Option SecretSpec
  path : String

/-- Embedding of `httpProxy.prepareTLSConfig`: without a secret, a minimal
config `{MinVersion: tls.VersionTLS12}`; with a secret, prometheus'
`NewTLSConfig` applied to the record derived from the secret's TLS settings
with the version range pinned to [TLS 1.2, TLS 1.3]. -/
def prepareTLSConfig (ntc : NewTLSConfigFn) (h : HttpProxy) : Except String GoTLSConfig :=
  match h.secret with
  | none => .ok defaultTLSConfig
  | some s =>
    ntc ⟨s.tlsConfig.ca, s.tlsConfig.cert, s.tlsConfig.key, s.tlsConfig.caFile,
      s.tlsConfig.certFile, s.tlsConfig.keyFile, s.tlsConfig.serverName,
      s.tlsConfig.insecureSkipVerify, versionTLS12, versionTLS13⟩

/-- The observable content of the dedicated per-request `http.Transport`
built by `prepareTransport` (timeouts in seconds). -/
structure Transport where
  dialTimeout : Nat
  keepAlive : Nat
  tlsHandshakeTimeout : Nat
  idleConnTimeout : Nat
  forceAttemptHTTP2 : Bool
  tlsClientConfig : GoTLSConfig
deriving DecidableEq

/-- Embedding of `httpProxy.prepareTransport`: a TLS-config build failure is
mapped to HTTP 502 (message verbatim from the Go source); otherwise a fresh
transport with dial timeout 30s, keep-alive 30s, TLS handshake timeout 10s,
idle-connection timeout 90s and HTTP/2 attempted. -/
def prepareTransport (ntc : NewTLSConfigFn) (h : HttpProxy) : Except HTTPError Transport :=
  match prepareTLSConfig ntc h with
  | .error _ => .error ⟨502, "unable build the tls config"⟩
  | .ok tlsConfig => .ok ⟨30, 30, 10, 90, true, tlsConfig⟩

/-! ## Request preparation (`prepareRequest` / `setupAuthentication`) -/

/-- Go `(*http.Request).SetBasicAuth`: set the `Authorization` header to
`Basic` followed by the base64 of `username:password`. -/
def setBasicAuth (req : Request) (username password : String) : Request :=
  { req with
      headers :=
        headerSet req.headers "Authorization"
          ("Basic " ++ base64Encode (username ++ ":" ++ password)) }

/-- Embedding of `httpProxy.setupAuthentication`: if the secret carries a
basic-auth block, resolve the password and call `SetBasicAuth`; then,
independently, if it carries an authorization block, resolve the credential
and set the `Authorization` header to `Type` + space + credential.  Either
resolution failure aborts with its error. -/
def setupAuthentication (secret : Option SecretSpec) (req : Request) :
    Except String Request :=
  match secret with
  | none => .ok req
  | some s =>
    match
      (match s.basicAuth with
       | none => Except.ok req
       | some basicAuth =>
         match basicAuth.getPassword with
         | .error e => .error e
         | .ok password => .ok (setBasicAuth req basicAuth.username password)) with
    | .error e => .error e
    | .ok req1 =>
      match s.authorization with
      | none => .ok req1
      | some auth =>
        match auth.getCredentials with
        | .error e => .error e
        | .ok credential =>
          .ok { req1 with
                  headers :=
                    headerSet req1.headers "Authorization" (auth.type ++ " " ++ credential) }

/-- Embedding of `httpProxy.prepareRequest`: set `Host` to the upstream URL's
host, default the real-IP and forwarded-proto headers when absent, overwrite
with every statically configured header, then apply authentication. -/
def prepareRequest (h : HttpProxy) (c : Ctx) : Except String Request :=
  let req := c.req
  let req1 := { req with host := h.config.url.host }
  let req2 :=
    if (headerGet req1.headers hdrXRealIP).length == 0 then
      { req1 with headers := headerSet req1.headers hdrXRealIP c.realIP }
    else req1
  let req3 :=
    if (headerGet req2.headers hdrXForwardedProto).length == 0 then
      { req2 with headers := headerSet req2.headers hdrXForwardedProto c.scheme }
    else req2
  let req4 := h.config.headers.foldl
    (fun r kv => { r with headers := headerSet r.headers kv.1 kv.2 }) req3
  setupAuthentication h.secret req4

/-! ## The serve call (`httpProxy.serve`) -/

/-- The result a call into the middleware produces: delegation to the next
handler (non-proxy path), an `echo.HTTPError`, a Go runtime panic (a method
call on a nil interface value), a transport-level error captured by the
reverse proxy's error handler, or a completed upstream exchange carrying the
status and the outgoing request as dispatched upstream. -/
inductive Outcome where
  | nextHandler (req : Request)
  | err (e : HTTPError)
  | panicked
  | transportFailure (msg : String)
  | completed (status : Nat) (outReq : Request)
deriving DecidableEq

/-- The allow-list test of `serve`: some entry whose method equals the
request method and whose pattern has a match inside the forwarded path. -/
def isRequestAllowed (h : HttpProxy) (method : String) : Bool :=
  h.config.allowedEndpoints.any
    (fun ae => ae.method == method && matchesAnywhereB ae.endpointPattern h.path.toList)

/-- The 403 message of `serve`, naming the rejected path and method. -/
def forbiddenMsg (path method : String) : String :=
  "you are not allowed to use this endpoint " ++ goQuote path ++
    " with the HTTP method " ++ method

/-- Go's `httputil.singleJoiningSlash`, used by the single-host reverse-proxy
director to join the target URL's base path with the request path. -/
def singleJoiningSlash (a b : String) : String :=
  let aslash := a.endsWith "/"
  let bslash := b.startsWith "/"
  if aslash && bslash then a ++ b.drop 1
  else if !aslash && !bslash then a ++ "/" ++ b
  else a ++ b

/-- The network as the reverse proxy sees it: a transport error or an
upstream HTTP status for the dispatched request. -/
def UpstreamFn : Type := Request → Except String Nat

/-- Embedding of `httpProxy.serve`: default-deny allow-list gate (403 with
the offending path and method), request preparation (failure maps to a bare
500), rewrite of the request path to the forwarded path, per-request
transport construction (a failure there is returned as is, i.e. the 502 from
`prepareTransport`), then the reverse-proxy exchange through
`httputil.NewSingleHostReverseProxy`, whose director points the request URL
at the upstream host; a transport-level failure is captured by the error
handler and returned as the call's result. -/
def serve (ntc : NewTLSConfigFn) (h : HttpProxy) (c : Ctx) (up : UpstreamFn) : Outcome :=
  let req := c.req
  if h.config.allowedEndpoints.length > 0 && !isRequestAllowed h req.method then
    .err ⟨403, forbiddenMsg h.path req.method⟩
  else
    match prepareRequest h c with
    | .error _ => .err ⟨500, "Internal Server Error"⟩
    | .ok req1 =>
      let req2 := { req1 with urlPath := h.path }
      match prepareTransport ntc h with
      | .error e => .err e
      | .ok _transport =>
        let outReq := { req2 with
          urlHost := h.config.url.host
          urlPath := singleJoiningSlash h.config.url.path req2.urlPath }
        match up outReq with
        | .error msg => .transportFailure msg
        | .ok status => .completed status outReq

/-! ## Scope resolvers and secret retrieval -/

/-- The two ways a DAO read can fail: the key does not exist
(`databaseModel.IsKeyNotFound`) or some other storage error with detail. -/
inductive StoreErr where
  | keyNotFound
  | internalErr (detail : String)

/-- The external collaborators of the middleware, as consumed through the
`Proxy` struct: the five DAOs, the `crypto.Crypto` capability and prometheus'
`config.NewTLSConfig`.  `decrypt` is modelled from the spec
(`Crypto.decrypt(SecretMaterial) -> () | DecryptError`, in-place mutation of
the caller's copy): its Lean embedding reports success or failure on the
pointer the Go code passes, which may be nil (`none`). -/
structure Stores where
  dashboard : String → String → Except StoreErr Dashboard
  secret : String → String → Except StoreErr SecretSpec
  globalSecret : String → Except StoreErr SecretSpec
  dts : String → String → Except StoreErr DatasourceSpec
  globalDTS : String → Except StoreErr DatasourceSpec
  decrypt : Option SecretSpec → Except String Unit
  newTLSConfig : NewTLSConfigFn

/-- The generic 500 of the resolvers: detail is logged only, the
client-visible message is constant. -/
def internalServerErr : HTTPError := ⟨500, "internal server error"⟩

/-- The 404 of the datasource resolvers. -/
def dtsNotFoundErr (name : String) : HTTPError :=
  ⟨404, "unable to forward the request to the datasource " ++ goQuote name ++
    ", datasource doesn't exist"⟩

/-- Embedding of `Proxy.getGlobalDatasource`. -/
def getGlobalDatasource (st : Stores) (name : String) : Except HTTPError DatasourceSpec :=
  match st.globalDTS name with
  | .ok dts => .ok dts
  | .error .keyNotFound => .error (dtsNotFoundErr name)
  | .error (.internalErr _) => .error internalServerErr

/-- Embedding of `Proxy.getProjectDatasource`. -/
def getProjectDatasource (st : Stores) (projectName name : String) :
    Except HTTPError DatasourceSpec :=
  match st.dts projectName name with
  | .ok dts => .ok dts
  | .error .keyNotFound => .error (dtsNotFoundErr name)
  | .error (.internalErr _) => .error internalServerErr

/-- Embedding of `Proxy.getDashboardDatasource`: resolve the dashboard, then
look the datasource up in its embedded map; a missing key is a 404 as well. -/
def getDashboardDatasource (st : Stores) (projectName dashboardName name : String) :
    Except HTTPError DatasourceSpec :=
  match st.dashboard projectName dashboardName with
  | .error .keyNotFound => .error (dtsNotFoundErr name)
  | .error (.internalErr _) => .error internalServerErr
  | .ok db =>
    match assocFind db.datasources name with
    | none => .error (dtsNotFoundErr name)
    | some dtsSpec => .ok dtsSpec

/-- The 404 of the secret getters. -/
def secretNotFoundErr (dtsName name : String) : HTTPError :=
  ⟨404, "unable to forward the request to the datasource " ++ goQuote dtsName ++
    ", secret " ++ goQuote name ++ " attached doesn't exist"⟩

/-- Embedding of `Proxy.getGlobalSecret`, kept in Go's
`(*v1.SecretSpec, error)` return shape. -/
def getGlobalSecret (st : Stores) (dtsName name : String) :
    Option SecretSpec × Option HTTPError :=
  match st.globalSecret name with
  | .ok scrt => (some scrt, none)
  | .error .keyNotFound => (none, some (secretNotFoundErr dtsName name))
  | .error (.internalErr _) => (none, some internalServerErr)

/-- Embedding of `Proxy.getProjectSecret`, kept in Go's
`(*v1.SecretSpec, error)` return shape. -/
def getProjectSecret (st : Stores) (projectName dtsName name : String) :
    Option SecretSpec × Option HTTPError :=
  match st.secret projectName name with
  | .ok scrt => (some scrt, none)
  | .error .keyNotFound => (none, some (secretNotFoundErr dtsName name))
  | .error (.internalErr _) => (none, some internalServerErr)

/-! ## Proxy construction (`newProxy`) and the scope pipelines -/

/-- Embedding of `newProxy`, faithful to the source including its flawed
secret handling: after `scrt, err = retrieveSecret(cfg.Secret)` the source
tests `if err == nil { return nil, err }` — so a successful retrieval
returns a nil proxy with a nil error, while a failed retrieval falls through
(dropping `err`) into `crypto.Decrypt(scrt)` with the nil `scrt`.  The
`cfg != nil` branch of the source is always taken because the modelled
`ValidateAndExtract` never returns a nil config together with a nil error,
so the trailing 502 (`datasource type not managed`) is unreachable. -/
def newProxy (spec : DatasourceSpec) (path : String)
    (decrypt : Option SecretSpec → Except String Unit)
    (retrieveSecret : String → Option SecretSpec × Option HTTPError) :
    Option HttpProxy × Option HTTPError :=
  match ValidateAndExtract spec.plugin.spec with
  | .error _ => (none, some ⟨502, "unable to find the http config"⟩)
  | .ok cfg =>
    if cfg.secret.length > 0 then
      match retrieveSecret cfg.secret with
      | (_, none) => (none, none)
      | (scrt, some _) =>
        match decrypt scrt with
        | .error _ => (none, some ⟨500, "Internal Server Error"⟩)
        | .ok _ => (some ⟨cfg, scrt, path⟩, none)
    else (some ⟨cfg, none, path⟩, none)

/-- Go `pr, err := newProxy(...); if err != nil { return err }; return
pr.serve(ctx)`: an error is returned first; otherwise `serve` is invoked on
the returned interface value — which panics when that value is nil. -/
def dispatchProxy (st : Stores) (c : Ctx) (up : UpstreamFn)
    (pr : Option HttpProxy × Option HTTPError) : Outcome :=
  match pr with
  | (_, some e) => .err e
  | (none, none) => .panicked
  | (some h, none) => serve st.newTLSConfig h c up

/-- Embedding of `Proxy.proxyGlobalDatasource`. -/
def proxyGlobalDatasource (st : Stores) (c : Ctx) (up : UpstreamFn) : Outcome :=
  match extractGlobalDatasourceAndPath c.req.urlPath with
  | .error e => .err e
  | .ok (dtsName, path) =>
    match getGlobalDatasource st dtsName with
    | .error e => .err e
    | .ok dts =>
      dispatchProxy st c up
        (newProxy dts path st.decrypt (fun name => getGlobalSecret st dtsName name))

/-- Embedding of `Proxy.proxyProjectDatasource`. -/
def proxyProjectDatasource (st : Stores) (c : Ctx) (up : UpstreamFn) : Outcome :=
  match extractProjectDatasourceAndPath c.req.urlPath with
  | .error e => .err e
  | .ok (projectName, dtsName, path) =>
    match getProjectDatasource st projectName dtsName with
    | .error e => .err e
    | .ok dts =>
      dispatchProxy st c up
        (newProxy dts path st.decrypt (fun name => getProjectSecret st projectName dtsName name))

/-- Embedding of `Proxy.proxyDashboardDatasource`; its secret lookup is the
project-scoped one, keyed by the project extracted from the path. -/
def proxyDashboardDatasource (st : Stores) (c : Ctx) (up : UpstreamFn) : Outcome :=
  match extractProjectDashboardDatasourceAndPath c.req.urlPath with
  | .error e => .err e
  | .ok (projectName, dashboardName, dtsName, path) =>
    match getDashboardDatasource st projectName dashboardName dtsName with
    | .error e => .err e
    | .ok dts =>
      dispatchProxy st c up
        (newProxy dts path st.decrypt (fun name => getProjectSecret st projectName dtsName name))

/-- Embedding of the middleware closure returned by `Proxy.Proxy`: match the
request path against the three scope templates; with no match at all the
request is handed to the next handler untouched, otherwise dispatch to the
matching scope, global first, then project, then dashboard. -/
def proxyMiddleware (st : Stores) (c : Ctx) (up : UpstreamFn) : Outcome :=
  let requestPath := c.req.urlPath
  let globalDatasourceMatch := matchStringGlobal requestPath
  let projectDatasourceMatch := matchStringProject requestPath
  let dashboardDatasourceMatch := matchStringDashboard requestPath
  if !globalDatasourceMatch && !projectDatasourceMatch && !dashboardDatasourceMatch then
    .nextHandler c.req
  else if globalDatasourceMatch then proxyGlobalDatasource st c up
  else if projectDatasourceMatch then proxyProjectDatasource st c up
  else proxyDashboardDatasource st c up

/-! ## Statement helpers and concrete fixtures -/

/-- Interleaving of the literal segments of a proxy pattern with concrete
capture values: the shape of a well-formed proxy path before its optional
forwarded suffix. -/
def interleave : List (List Char) → List (List Char) → List Char
  | l :: ls, n :: ns => l ++ (n ++ interleave ls ns)
  | _, _ => []

/-- The forwarded path the classifier derives from the rest group: `/` when
the group is empty, the group itself otherwise. -/
def forwardedPathOf (restGroup : List Char) : String :=
  if restGroup.isEmpty then "/" else String.mk restGroup

/-- An all-empty TLS block. -/
def noTLS : SecretTLSConfig := ⟨"", "", "", "", "", "", "", false⟩

/-- A secret holding only basic auth `u` / `p`. -/
def basicSecret : SecretSpec := ⟨some ⟨"u", .ok "p"⟩, none, noTLS⟩

/-- A secret holding both a basic-auth block and a custom authorization
block. -/
def bothAuthSecret : SecretSpec := ⟨some ⟨"u", .ok "p"⟩, some ⟨"Bearer", .ok "tok"⟩, noTLS⟩

/-- A concrete upstream URL. -/
def upstreamURL : URL := ⟨"upstream.example:9090", ""⟩

/-- A concrete HTTP datasource config referencing secret `s1`, with an empty
allow-list and no static headers. -/
def cfgWithSecret : Config := ⟨upstreamURL, "s1", [], []⟩

/-- A datasource whose plugin spec is the HTTP config above. -/
def dsWithSecret : DatasourceSpec := ⟨⟨"HTTPProxy", .http cfgWithSecret⟩⟩

/-- A `NewTLSConfig` collaborator that always succeeds. -/
def okTLS : NewTLSConfigFn := fun _ => .ok defaultTLSConfig

/-- Stores where every DAO read misses, decryption succeeds and TLS building
succeeds. -/
def baseStores : Stores :=
  ⟨fun _ _ => .error .keyNotFound, fun _ _ => .error .keyNotFound,
   fun _ => .error .keyNotFound, fun _ _ => .error .keyNotFound,
   fun _ => .error .keyNotFound, fun _ => .ok (), okTLS⟩

/-- Stores for the missing-secret scenario: project datasource `p1/prom1`
resolves to `dsWithSecret`, but its secret `s1` is reported not found by the
project secret store; the crypto collaborator's behaviour is a parameter. -/
def storesMissingSecret (dec : Option SecretSpec → Except String Unit) : Stores :=
  { baseStores with
      dts := fun p n => if p == "p1" && n == "prom1" then .ok dsWithSecret
        else .error .keyNotFound
      decrypt := dec }

/-- Stores for the happy-path scenario: project datasource `p1/prom1`
resolves, and its secret `s1` resolves to `basicSecret` in project `p1`. -/
def storesWithSecret (dec : Option SecretSpec → Except String Unit) : Stores :=
  { storesMissingSecret dec with
      secret := fun p n => if p == "p1" && n == "s1" then .ok basicSecret
        else .error .keyNotFound }

/-- A GET request for the given path, with no preexisting headers. -/
def proxyReq (path : String) : Request := ⟨"GET", path, "", "", []⟩

/-- A context wrapping `proxyReq`. -/
def ctxFor (path : String) : Ctx := ⟨proxyReq path, "203.0.113.7", "http"⟩

/-- The end-to-end project-scope proxy path of the spec's example. -/
def projPath : String := "/proxy/projects/p1/datasources/prom1/api/v1/query"

/-- The proxy descriptor the flawed `newProxy` actually builds in the
missing-secret scenario when `Decrypt(nil)` reports success: the resolved
config but a nil secret. -/
def secretlessProxy : HttpProxy := ⟨cfgWithSecret, none, "/api/v1/query"⟩

/-- The `promConfig.TLSConfig` record `prepareTLSConfig` derives from a
secret: the secret's TLS fields plus the pinned version range. -/
def promRecordOf (s : SecretSpec) : PromTLSConfig :=
  ⟨s.tlsConfig.ca, s.tlsConfig.cert, s.tlsConfig.key, s.tlsConfig.caFile,
    s.tlsConfig.certFile, s.tlsConfig.keyFile, s.tlsConfig.serverName,
    s.tlsConfig.insecureSkipVerify, versionTLS12, versionTLS13⟩

/-- An upstream that always answers 200. -/
def ok200 : UpstreamFn := fun _ => .ok 200

/-- A crypto collaborator whose decryption always succeeds. -/
def decOK : Option SecretSpec → Except String Unit := fun _ => .ok ()

/-- An allow-list entry: method POST, pattern accepting exactly `/w`. -/
def allowPostW : AllowedEndpoint := ⟨"POST", fun t => t == "/w".toList⟩

/-- An allow-list entry: method GET, pattern accepting exactly `/api`. -/
def allowGetApi : AllowedEndpoint := ⟨"GET", fun t => t == "/api".toList⟩

/-- A descriptor with a one-entry allow-list not matching a GET request. -/
def proxyDenied : HttpProxy := ⟨⟨upstreamURL, "", [allowPostW], []⟩, none, "/q"⟩

/-- A descriptor whose forwarded path contains the allowed pattern `/api`
strictly inside it. -/
def proxyInsideMatch : HttpProxy := ⟨⟨upstreamURL, "", [allowGetApi], []⟩, none, "/foo/api/bar"⟩

/-- A secret carrying only TLS material. -/
def tlsOnlySecret : SecretSpec := ⟨none, none, ⟨"inline-ca", "", "", "", "", "", "sni.example", true⟩⟩

/-- A descriptor attached to `tlsOnlySecret`, with an empty allow-list. -/
def proxyTLSOnly : HttpProxy := ⟨⟨upstreamURL, "", [], []⟩, some tlsOnlySecret, "/"⟩

/-- A `NewTLSConfig` collaborator that always fails. -/
def badTLS : NewTLSConfigFn := fun _ => .error "unreadable CA"

/-- An alternative project secret store, answering every lookup. -/
def altSecretStore : String → String → Except StoreErr SecretSpec :=
  fun _ _ => .ok bothAuthSecret

/-- An alternative global secret store, answering every lookup. -/
def altGlobalSecretStore : String → Except StoreErr SecretSpec :=
  fun _ => .ok bothAuthSecret

/-- A global-scope proxy path. -/
def globalPath : String := "/proxy/globaldatasources/g1/api/v1/query"

/-- A dashboard-scope proxy path. -/
def dashboardPath : String := "/proxy/projects/p1/dashboards/d1/datasources/k1/q"

/-- The outgoing request the serve call of the missing-secret scenario hands
to the reverse proxy once the dropped 404 has let it through without a
secret. -/
def missingSecretOutReq : Request :=
  ⟨"GET", "/api/v1/query", "upstream.example:9090", "upstream.example:9090",
    [(hdrXRealIP, "203.0.113.7"), (hdrXForwardedProto, "http")]⟩

/-! # Theorems -/

example :
    extractGlobalDatasourceAndPath "/proxy/globaldatasources/prom/api/v1/query" =
      .ok ("prom", "/api/v1/query") := by rfl

example : extractGlobalDatasourceAndPath "/proxy/globaldatasources/prom" = .ok ("prom", "/") := by
  rfl

example :
    extractProjectDatasourceAndPath "/proxy/projects/p1/datasources/prom1/api/v1/query" =
      .ok ("p1", "prom1", "/api/v1/query") := by rfl

example :
    extractProjectDashboardDatasourceAndPath
        "/proxy/projects/p1/dashboards/d1/datasources/k/x" =
      .ok ("p1", "d1", "k", "/x") := by rfl

example : matchStringGlobal "/proxy/projects/p1/datasources/prom1/api/v1/query" = false := by
  decide

example : matchStringProject "/proxy/projects/p1/datasources/prom1/api/v1/query" = true := by
  decide

example : matchStringDashboard "/proxy/projects/p1/dashboards/d1/datasources/k" = true := by
  decide

example : matchStringProject "/proxy/projects/p1/dashboards/d1/datasources/k" = false := by
  decide

example : base64Encode "u:p" = "dTpw" := by rfl

/-! ## List scanning helper lemmas -/

theorem dropLit_self_append (lit s : List Char) : dropLit lit (lit ++ s) = some s := by
  induction lit with
  | nil => rfl
  | cons c cs ih => simp [dropLit, ih]

theorem takeWhile_append_of_all (p : Char → Bool) (xs ys : List Char)
    (h : ∀ c ∈ xs, p c = true) :
    (xs ++ ys).takeWhile p = xs ++ ys.takeWhile p := by
  induction xs with
  | nil => simp
  | cons c cs ih =>
    have hc : p c = true := h c (by simp)
    simp only [List.cons_append, List.takeWhile_cons, hc, if_true]
    rw [ih (fun d hd => h d (by simp [hd]))]

theorem dropWhile_append_of_all (p : Char → Bool) (xs ys : List Char)
    (h : ∀ c ∈ xs, p c = true) :
    (xs ++ ys).dropWhile p = ys.dropWhile p := by
  induction xs with
  | nil => simp
  | cons c cs ih =>
    have hc : p c = true := h c (by simp)
    simp only [List.cons_append, List.dropWhile_cons, hc, if_true]
    exact ih (fun d hd => h d (by simp [hd]))

theorem takeWhile_eq_self_of_all (p : Char → Bool) (xs : List Char)
    (h : ∀ c ∈ xs, p c = true) : xs.takeWhile p = xs := by
  have := takeWhile_append_of_all p xs [] h
  simpa using this

theorem dropWhile_eq_nil_of_all (p : Char → Bool) (xs : List Char)
    (h : ∀ c ∈ xs, p c = true) : xs.dropWhile p = [] := by
  have := dropWhile_append_of_all p xs [] h
  simpa using this

theorem scanAux_nilInput (lits : List (List Char)) (fuel : Nat) :
    scanAux lits fuel [] = [] := by
  cases fuel <;> rfl

/-! ## Match-anywhere lemmas for the allow-list semantics -/

theorem matchesStartingHere_of_nilAccepted (pat : List Char → Bool) (s : List Char)
    (h : pat [] = true) : matchesStartingHere pat s = true := by
  cases s <;> simp [matchesStartingHere, h]

theorem matchesStartingHere_append (t t2 : List Char) (pat : List Char → Bool)
    (hp : pat t = true) : matchesStartingHere pat (t ++ t2) = true := by
  induction t generalizing pat with
  | nil => exact matchesStartingHere_of_nilAccepted pat t2 hp
  | cons c t' ih =>
    simp only [List.cons_append, matchesStartingHere, List.append_eq]
    rw [ih (fun u => pat (c :: u)) hp]
    simp

theorem matchesAnywhereB_of_here (pat : List Char → Bool) (s : List Char)
    (h : matchesStartingHere pat s = true) : matchesAnywhereB pat s = true := by
  cases s with
  | nil => simpa [matchesStartingHere, matchesAnywhereB] using h
  | cons c t => simp [matchesAnywhereB, h]

theorem matchesAnywhereB_of_sub (pat : List Char → Bool) (t1 t t2 : List Char)
    (hp : pat t = true) : matchesAnywhereB pat (t1 ++ (t ++ t2)) = true := by
  induction t1 with
  | nil =>
    simpa using matchesAnywhereB_of_here pat (t ++ t2) (matchesStartingHere_append t t2 pat hp)
  | cons c t1' ih => simp [matchesAnywhereB, ih]

/-! ## Header lemmas -/

theorem find?_filterNe_append (hs : List (String × String)) (k v : String) :
    List.find? (fun q => q.1 == k) (hs.filter (fun q => q.1 != k) ++ [(k, v)]) = some (k, v) := by
  induction hs with
  | nil => simp
  | cons p t ih =>
    by_cases hp : (p.1 == k) = true
    · have hne : (p.1 != k) = false := by simp [bne, hp]
      rw [List.filter_cons, hne]
      simp only [Bool.false_eq_true, if_false]
      exact ih
    · have hpk : (p.1 == k) = false := by simpa using hp
      have hne : (p.1 != k) = true := by simp [bne, hpk]
      rw [List.filter_cons, hne]
      simp only [if_true, List.cons_append, List.find?, hpk]
      exact ih

theorem headerGet_headerSet (hs : List (String × String)) (k v : String) :
    headerGet (headerSet hs k v) k = v := by
  unfold headerGet headerSet
  rw [find?_filterNe_append]

/-! ## Correctness of classification on well-formed proxy paths -/

theorem restShape_scan (rest : List Char) (hrest : rest = [] ∨ ∃ r, rest = '/' :: r) :
    rest.takeWhile nameChar = [] ∧ rest.dropWhile nameChar = rest := by
  have hslash : nameChar '/' = false := by decide
  rcases hrest with h0 | ⟨r, hr⟩
  · subst h0; simp
  · subst hr; simp [List.takeWhile_cons, List.dropWhile_cons, hslash]

theorem interleave_headShape (ls ns : List (List Char)) (rest : List Char)
    (hlits : ∀ l ∈ ls, ∃ t, l = '/' :: t)
    (hrest : rest = [] ∨ ∃ r, rest = '/' :: r) :
    (interleave ls ns ++ rest).takeWhile nameChar = []
    ∧ (interleave ls ns ++ rest).dropWhile nameChar = interleave ls ns ++ rest := by
  have hslash : nameChar '/' = false := by decide
  cases ls with
  | nil =>
    simp only [interleave, List.nil_append]
    exact restShape_scan rest hrest
  | cons l' ls' =>
    cases ns with
    | nil =>
      simp only [interleave, List.nil_append]
      exact restShape_scan rest hrest
    | cons n' ns' =>
      obtain ⟨t', hl'⟩ := hlits l' (by simp)
      subst hl'
      simp [interleave, List.takeWhile_cons, List.dropWhile_cons, hslash]

theorem tryMatchSegs_interleave (lits : List (List Char)) :
    ∀ (names : List (List Char)) (rest : List Char),
    lits.length = names.length →
    (∀ l ∈ lits, ∃ t, l = '/' :: t) →
    (∀ n ∈ names, n ≠ [] ∧ ∀ c ∈ n, nameChar c = true) →
    (rest = [] ∨ ∃ r, rest = '/' :: r) →
    tryMatchSegs lits (interleave lits names ++ rest) = some (names, rest) := by
  induction lits with
  | nil =>
    intro names rest hlen _ _ _
    cases names with
    | nil => simp [interleave, tryMatchSegs]
    | cons n ns => simp at hlen
  | cons l ls ih =>
    intro names rest hlen hlits hnames hrest
    cases names with
    | nil => simp at hlen
    | cons n ns =>
      obtain ⟨hne, hnc⟩ := hnames n (by simp)
      have hlen' : ls.length = ns.length := by simpa using hlen
      have hlits' : ∀ l' ∈ ls, ∃ t, l' = '/' :: t := fun l' hl' => hlits l' (by simp [hl'])
      have hnames' : ∀ n' ∈ ns, n' ≠ [] ∧ ∀ c ∈ n', nameChar c = true :=
        fun n' hn' => hnames n' (by simp [hn'])
      have hshape : interleave (l :: ls) (n :: ns) ++ rest
          = l ++ (n ++ (interleave ls ns ++ rest)) := by
        simp [interleave, List.append_assoc]
      obtain ⟨htake0, hdrop0⟩ := interleave_headShape ls ns rest hlits' hrest
      have htake : (n ++ (interleave ls ns ++ rest)).takeWhile nameChar = n := by
        rw [takeWhile_append_of_all _ _ _ hnc, htake0, List.append_nil]
      have hdrop : (n ++ (interleave ls ns ++ rest)).dropWhile nameChar
          = interleave ls ns ++ rest := by
        rw [dropWhile_append_of_all _ _ _ hnc, hdrop0]
      have hemp : n.isEmpty = false := by
        cases n with
        | nil => exact absurd rfl hne
        | cons _ _ => rfl
      rw [hshape]
      simp only [tryMatchSegs, dropLit_self_append, htake, hdrop, hemp,
        ih ns rest hlen' hlits' hnames' hrest]
      simp

theorem tryFullMatch_interleave (lits names : List (List Char)) (rest : List Char)
    (hlen : lits.length = names.length)
    (hlits : ∀ l ∈ lits, ∃ t, l = '/' :: t)
    (hnames : ∀ n ∈ names, n ≠ [] ∧ ∀ c ∈ n, nameChar c = true)
    (hrest : rest = [] ∨ ∃ r, rest = '/' :: r ∧ ∀ c ∈ r, notNL c = true) :
    tryFullMatch lits (interleave lits names ++ rest) = some (names, rest, []) := by
  have hrest' : rest = [] ∨ ∃ r, rest = '/' :: r := by
    rcases hrest with h | ⟨r, hr, _⟩
    · exact Or.inl h
    · exact Or.inr ⟨r, hr⟩
  unfold tryFullMatch
  rw [tryMatchSegs_interleave lits names rest hlen hlits hnames hrest']
  rcases hrest with h0 | ⟨r, hr, hnl⟩
  · subst h0; rfl
  · subst hr
    simp only [optRestGroup, takeWhile_eq_self_of_all notNL r hnl,
      dropWhile_eq_nil_of_all notNL r hnl]

theorem scanMatches_interleave (t0 : List Char) (ls names : List (List Char)) (rest : List Char)
    (hlen : (('/' :: t0) :: ls).length = names.length)
    (hlits : ∀ l ∈ ('/' :: t0) :: ls, ∃ t, l = '/' :: t)
    (hnames : ∀ n ∈ names, n ≠ [] ∧ ∀ c ∈ n, nameChar c = true)
    (hrest : rest = [] ∨ ∃ r, rest = '/' :: r ∧ ∀ c ∈ r, notNL c = true) :
    scanMatches (('/' :: t0) :: ls) (interleave (('/' :: t0) :: ls) names ++ rest)
      = [(names, rest)] := by
  cases names with
  | nil => simp at hlen
  | cons n ns =>
    have hfull := tryFullMatch_interleave (('/' :: t0) :: ls) (n :: ns) rest hlen hlits hnames hrest
    have hshape : interleave (('/' :: t0) :: ls) (n :: ns) ++ rest
        = '/' :: (t0 ++ (n ++ (interleave ls ns ++ rest))) := by
      simp [interleave, List.append_assoc]
    unfold scanMatches
    rw [hshape] at hfull ⊢
    rw [List.length_cons]
    simp only [scanAux, hfull, scanAux_nilInput]

theorem extractGlobal_wellFormed (nm rest : List Char)
    (hnm : nm ≠ [] ∧ ∀ c ∈ nm, nameChar c = true)
    (hrest : rest = [] ∨ ∃ r, rest = '/' :: r ∧ ∀ c ∈ r, notNL c = true) :
    extractGlobalDatasourceAndPath
        (String.mk ("/proxy/globaldatasources/".toList ++ nm ++ rest))
      = .ok (String.mk nm, forwardedPathOf rest) := by
  have hscan := scanMatches_interleave "proxy/globaldatasources/".toList [] [nm] rest
    (by simp)
    (by intro l hl; simp at hl; subst hl; exact ⟨"proxy/globaldatasources/".toList, rfl⟩)
    (by intro n hn; simp at hn; subst hn; exact hnm) hrest
  have he1 : (('/' :: "proxy/globaldatasources/".toList) : List Char) :: ([] : List (List Char))
      = globalLits := by rfl
  rw [he1] at hscan
  have he2 : interleave globalLits [nm] ++ rest
      = "/proxy/globaldatasources/".toList ++ nm ++ rest := by
    simp [interleave, globalLits, List.append_assoc]
  rw [he2] at hscan
  unfold extractGlobalDatasourceAndPath
  have he3 : (String.mk ("/proxy/globaldatasources/".toList ++ nm ++ rest)).toList
      = "/proxy/globaldatasources/".toList ++ nm ++ rest := rfl
  rw [he3, hscan]
  rfl

theorem extractProject_wellFormed (pj nm rest : List Char)
    (hpj : pj ≠ [] ∧ ∀ c ∈ pj, nameChar c = true)
    (hnm : nm ≠ [] ∧ ∀ c ∈ nm, nameChar c = true)
    (hrest : rest = [] ∨ ∃ r, rest = '/' :: r ∧ ∀ c ∈ r, notNL c = true) :
    extractProjectDatasourceAndPath
        (String.mk ("/proxy/projects/".toList ++ pj ++ "/datasources/".toList ++ nm ++ rest))
      = .ok (String.mk pj, String.mk nm, forwardedPathOf rest) := by
  have hscan := scanMatches_interleave "proxy/projects/".toList ["/datasources/".toList]
    [pj, nm] rest
    (by simp)
    (by
      intro l hl
      simp at hl
      rcases hl with h | h <;> subst h
      · exact ⟨"proxy/projects/".toList, rfl⟩
      · exact ⟨"datasources/".toList, rfl⟩)
    (by
      intro n hn
      simp at hn
      rcases hn with h | h <;> subst h
      · exact hpj
      · exact hnm) hrest
  have he1 : (('/' :: "proxy/projects/".toList) : List Char) :: ["/datasources/".toList]
      = projectLits := by rfl
  rw [he1] at hscan
  have he2 : interleave projectLits [pj, nm] ++ rest
      = "/proxy/projects/".toList ++ pj ++ "/datasources/".toList ++ nm ++ rest := by
    simp [interleave, projectLits, List.append_assoc]
  rw [he2] at hscan
  unfold extractProjectDatasourceAndPath
  have he3 : (String.mk ("/proxy/projects/".toList ++ pj ++ "/datasources/".toList
      ++ nm ++ rest)).toList
      = "/proxy/projects/".toList ++ pj ++ "/datasources/".toList ++ nm ++ rest := rfl
  rw [he3, hscan]
  rfl

theorem extractDashboard_wellFormed (pj db nm rest : List Char)
    (hpj : pj ≠ [] ∧ ∀ c ∈ pj, nameChar c = true)
    (hdb : db ≠ [] ∧ ∀ c ∈ db, nameChar c = true)
    (hnm : nm ≠ [] ∧ ∀ c ∈ nm, nameChar c = true)
    (hrest : rest = [] ∨ ∃ r, rest = '/' :: r ∧ ∀ c ∈ r, notNL c = true) :
    extractProjectDashboardDatasourceAndPath
        (String.mk ("/proxy/projects/".toList ++ pj ++ "/dashboards/".toList ++ db
          ++ "/datasources/".toList ++ nm ++ rest))
      = .ok (String.mk pj, String.mk db, String.mk nm, forwardedPathOf rest) := by
  have hscan := scanMatches_interleave "proxy/projects/".toList
    ["/dashboards/".toList, "/datasources/".toList] [pj, db, nm] rest
    (by simp)
    (by
      intro l hl
      simp at hl
      rcases hl with h | h | h <;> subst h
      · exact ⟨"proxy/projects/".toList, rfl⟩
      · exact ⟨"dashboards/".toList, rfl⟩
      · exact ⟨"datasources/".toList, rfl⟩)
    (by
      intro n hn
      simp at hn
      rcases hn with h | h | h <;> subst h
      · exact hpj
      · exact hdb
      · exact hnm) hrest
  have he1 : (('/' :: "proxy/projects/".toList) : List Char)
      :: ["/dashboards/".toList, "/datasources/".toList] = dashboardLits := by rfl
  rw [he1] at hscan
  have he2 : interleave dashboardLits [pj, db, nm] ++ rest
      = "/proxy/projects/".toList ++ pj ++ "/dashboards/".toList ++ db
        ++ "/datasources/".toList ++ nm ++ rest := by
    simp [interleave, dashboardLits, List.append_assoc]
  rw [he2] at hscan
  unfold extractProjectDashboardDatasourceAndPath
  have he3 : (String.mk ("/proxy/projects/".toList ++ pj ++ "/dashboards/".toList ++ db
      ++ "/datasources/".toList ++ nm ++ rest)).toList
      = "/proxy/projects/".toList ++ pj ++ "/dashboards/".toList ++ db
        ++ "/datasources/".toList ++ nm ++ rest := rfl
  rw [he3, hscan]
  rfl

/-! ## Outcome lemmas about the serve call -/

theorem prepareTransport_error_shape (ntc : NewTLSConfigFn) (h : HttpProxy) (e : HTTPError)
    (he : prepareTransport ntc h = .error e) : e = ⟨502, "unable build the tls config"⟩ := by
  unfold prepareTransport at he
  cases hp : prepareTLSConfig ntc h with
  | error s =>
    rw [hp] at he
    simp at he
    exact he.symm
  | ok t =>
    rw [hp] at he
    simp at he

theorem matchUpstream_ne_err (o : Except String Nat) (rq : Request) (e : HTTPError) :
    (match o with
     | .error msg => Outcome.transportFailure msg
     | .ok status => Outcome.completed status rq) ≠ .err e := by
  cases o <;> simp

theorem serve_not_forbidden (ntc : NewTLSConfigFn) (h : HttpProxy) (c : Ctx) (up : UpstreamFn)
    (hgate : (h.config.allowedEndpoints.length > 0 && !isRequestAllowed h c.req.method) = false) :
    ∀ m, serve ntc h c up ≠ .err ⟨403, m⟩ := by
  intro m
  simp only [serve, hgate, Bool.false_eq_true, if_false]
  cases hpr : prepareRequest h c with
  | error s => simp
  | ok r1 =>
    simp only []
    cases hpt : prepareTransport ntc h with
    | error e =>
      have he := prepareTransport_error_shape ntc h e hpt
      subst he
      simp
    | ok tr =>
      simp only []
      exact matchUpstream_ne_err _ _ _

theorem serve_no_secret_outcomes (ntc : NewTLSConfigFn) (h : HttpProxy) (c : Ctx)
    (up : UpstreamFn) (hsec : h.secret = none) (hempty : h.config.allowedEndpoints = [])
    (r : Request) (hpr : prepareRequest h c = .ok r) :
    ∀ e, serve ntc h c up ≠ .err e := by
  intro e
  have hgate : (h.config.allowedEndpoints.length > 0
      && !isRequestAllowed h c.req.method) = false := by
    simp [hempty]
  have hpt : prepareTransport ntc h = .ok ⟨30, 30, 10, 90, true, defaultTLSConfig⟩ := by
    simp [prepareTransport, prepareTLSConfig, hsec]
  simp only [serve, hgate, Bool.false_eq_true, if_false, hpr, hpt]
  exact matchUpstream_ne_err _ _ _

/-- C4: with an empty allow-list the serve call never answers 403; with a
non-empty allow-list the request passes the gate exactly when some entry's
method equals the request method and its pattern has a match inside the
forwarded path (`isRequestAllowed`), and otherwise the call answers 403
naming the rejected path and method. -/
theorem C4_allowlist_enforcement (ntc : NewTLSConfigFn) (h : HttpProxy) (c : Ctx)
    (up : UpstreamFn) :
    (h.config.allowedEndpoints = [] → ∀ m, serve ntc h c up ≠ .err ⟨403, m⟩)
    ∧ (h.config.allowedEndpoints ≠ [] → isRequestAllowed h c.req.method = false →
        serve ntc h c up = .err ⟨403, forbiddenMsg h.path c.req.method⟩)
    ∧ (isRequestAllowed h c.req.method = true → ∀ m, serve ntc h c up ≠ .err ⟨403, m⟩) := by
  refine ⟨?_, ?_, ?_⟩
  · intro hempty
    apply serve_not_forbidden
    simp [hempty]
  · intro hne hfalse
    have hlen : 0 < h.config.allowedEndpoints.length := List.length_pos.mpr hne
    have hgate : (h.config.allowedEndpoints.length > 0
        && !isRequestAllowed h c.req.method) = true := by
      simp [hfalse, hlen]
    simp [serve, hgate]
  · intro htrue
    apply serve_not_forbidden
    simp [htrue]

/-- Witness for C4: the concrete descriptor `proxyDenied` (allow-list
`[POST /w]`, forwarded path `/q`) rejects a GET request with the exact 403
message. -/
theorem C4_allowlist_enforcement_witness :
    serve okTLS proxyDenied (ctxFor "/x") ok200 = .err ⟨403, forbiddenMsg "/q" "GET"⟩ :=
  (C4_allowlist_enforcement okTLS proxyDenied (ctxFor "/x") ok200).2.1
    (by simp [proxyDenied]) (by decide)

/-- C5: allow-list patterns are applied unanchored (`FindAllString` match
semantics): whenever an entry's method equals the request method and its
pattern accepts some contiguous substring of the forwarded path — not
necessarily the whole path — the gate evaluates to allowed and the call is
never rejected with 403. -/
theorem C5_patterns_matched_unanchored (ntc : NewTLSConfigFn) (h : HttpProxy) (c : Ctx)
    (up : UpstreamFn) (ae : AllowedEndpoint) (hmem : ae ∈ h.config.allowedEndpoints)
    (hm : ae.method = c.req.method) (t1 t t2 : List Char)
    (hsplit : h.path.toList = t1 ++ (t ++ t2)) (hpat : ae.endpointPattern t = true) :
    isRequestAllowed h c.req.method = true
    ∧ ∀ m, serve ntc h c up ≠ .err ⟨403, m⟩ := by
  have hbeq : (ae.method == c.req.method) = true := by
    rw [hm]
    simp
  have hallow : isRequestAllowed h c.req.method = true := by
    unfold isRequestAllowed
    rw [List.any_eq_true]
    refine ⟨ae, hmem, ?_⟩
    rw [hsplit]
    simp [hbeq, matchesAnywhereB_of_sub ae.endpointPattern t1 t t2 hpat]
  exact ⟨hallow, serve_not_forbidden ntc h c up (by simp [hallow])⟩

/-- Witness for C5: the pattern `/api` sits strictly inside the forwarded
path `/foo/api/bar`, and the GET request is not rejected. -/
theorem C5_patterns_matched_unanchored_witness :
    serve okTLS proxyInsideMatch (ctxFor "/z") ok200
      ≠ .err ⟨403, forbiddenMsg "/foo/api/bar" "GET"⟩ :=
  (C5_patterns_matched_unanchored okTLS proxyInsideMatch (ctxFor "/z") ok200 allowGetApi
    (List.mem_singleton.mpr rfl) rfl "/foo".toList "/api".toList "/bar".toList (by decide)
    (by decide)).2 (forbiddenMsg "/foo/api/bar" "GET")

/-- C3 counterexample: for the secret configuring both a basic-auth block
(`u`/`p`) and a custom authorization block (`Bearer tok`), the prepared
request does not carry the basic-auth Authorization value at all — both
writes target the single `Authorization` header, so the second overwrites
the first; the claim that both are set on the outgoing request (neither
silently dropped) is false. -/
theorem C3_counterexample :
    setupAuthentication (some bothAuthSecret) (proxyReq "/x")
      = .ok { proxyReq "/x" with headers := [("Authorization", "Bearer tok")] }
    ∧ headerGet [("Authorization", "Bearer tok")] "Authorization" = "Bearer tok"
    ∧ (([("Authorization", "Bearer tok")] : List (String × String)).any
        (fun p => p.2 == "Basic " ++ base64Encode "u:p")) = false := by
  refine ⟨rfl, rfl, by decide⟩

/-- C3 amended: when a secret configures both a basic-auth block and a
custom authorization block, request preparation performs both header writes,
in order — `SetBasicAuth` first, then the custom `<scheme> <credential>` —
but both use the `Authorization` header, so the custom value overwrites the
basic one and is what the prepared request finally carries. -/
theorem C3_both_auth_writes_custom_wins (req : Request) (u pw ty cred : String)
    (tc : SecretTLSConfig) :
    setupAuthentication (some ⟨some ⟨u, .ok pw⟩, some ⟨ty, .ok cred⟩, tc⟩) req
      = .ok { setBasicAuth req u pw with
                headers := headerSet (setBasicAuth req u pw).headers "Authorization"
                  (ty ++ " " ++ cred) }
    ∧ headerGet (headerSet (setBasicAuth req u pw).headers "Authorization"
        (ty ++ " " ++ cred)) "Authorization" = ty ++ " " ++ cred :=
  ⟨rfl, headerGet_headerSet _ _ _⟩

/-- C6: on every well-formed path under the three scope templates (names
drawn from the `[a-zA-Z-0-9_-]` class, an optional newline-free `/…` suffix)
classification extracts exactly the scope identifiers and the `{rest}`
suffix as forwarded path, the forwarded path defaulting to `/` when no
suffix is present and never being empty. -/
theorem C6_path_classification (pj db nm rest : List Char)
    (hpj : pj ≠ [] ∧ ∀ c ∈ pj, nameChar c = true)
    (hdb : db ≠ [] ∧ ∀ c ∈ db, nameChar c = true)
    (hnm : nm ≠ [] ∧ ∀ c ∈ nm, nameChar c = true)
    (hrest : rest = [] ∨ ∃ r, rest = '/' :: r ∧ ∀ c ∈ r, notNL c = true) :
    extractGlobalDatasourceAndPath
        (String.mk ("/proxy/globaldatasources/".toList ++ nm ++ rest))
      = .ok (String.mk nm, forwardedPathOf rest)
    ∧ extractProjectDatasourceAndPath
        (String.mk ("/proxy/projects/".toList ++ pj ++ "/datasources/".toList ++ nm ++ rest))
      = .ok (String.mk pj, String.mk nm, forwardedPathOf rest)
    ∧ extractProjectDashboardDatasourceAndPath
        (String.mk ("/proxy/projects/".toList ++ pj ++ "/dashboards/".toList ++ db
          ++ "/datasources/".toList ++ nm ++ rest))
      = .ok (String.mk pj, String.mk db, String.mk nm, forwardedPathOf rest)
    ∧ forwardedPathOf rest ≠ "" := by
  refine ⟨extractGlobal_wellFormed nm rest hnm hrest,
    extractProject_wellFormed pj nm rest hpj hnm hrest,
    extractDashboard_wellFormed pj db nm rest hpj hdb hnm hrest, ?_⟩
  rcases hrest with h0 | ⟨r, hr, _⟩
  · subst h0
    decide
  · subst hr
    intro hcontra
    exact List.noConfusion (congrArg String.data hcontra)

/-- Witness for C6, at the concrete identifiers `p1`, `d1`, `prom1` and
suffix `/api/v1/query`. -/
theorem C6_path_classification_witness :
    extractGlobalDatasourceAndPath
        (String.mk ("/proxy/globaldatasources/".toList ++ "prom1".toList
          ++ "/api/v1/query".toList))
      = .ok (String.mk "prom1".toList, forwardedPathOf "/api/v1/query".toList)
    ∧ extractProjectDatasourceAndPath
        (String.mk ("/proxy/projects/".toList ++ "p1".toList ++ "/datasources/".toList
          ++ "prom1".toList ++ "/api/v1/query".toList))
      = .ok (String.mk "p1".toList, String.mk "prom1".toList,
          forwardedPathOf "/api/v1/query".toList)
    ∧ extractProjectDashboardDatasourceAndPath
        (String.mk ("/proxy/projects/".toList ++ "p1".toList ++ "/dashboards/".toList
          ++ "d1".toList ++ "/datasources/".toList ++ "prom1".toList
          ++ "/api/v1/query".toList))
      = .ok (String.mk "p1".toList, String.mk "d1".toList, String.mk "prom1".toList,
          forwardedPathOf "/api/v1/query".toList)
    ∧ forwardedPathOf "/api/v1/query".toList ≠ "" :=
  C6_path_classification "p1".toList "d1".toList "prom1".toList "/api/v1/query".toList
    (by decide) (by decide) (by decide)
    (Or.inr ⟨"api/v1/query".toList, by decide, by decide⟩)

/-- C7: a request whose path matches none of the three scope templates is
delegated to the next handler with the request unmodified, whatever the
store environment — so no datasource, dashboard or secret store (nor the
crypto collaborator) is consulted. -/
theorem C7_passthrough (st : Stores) (c : Ctx) (up : UpstreamFn)
    (hg : matchStringGlobal c.req.urlPath = false)
    (hp : matchStringProject c.req.urlPath = false)
    (hd : matchStringDashboard c.req.urlPath = false) :
    proxyMiddleware st c up = .nextHandler c.req := by
  simp [proxyMiddleware, hg, hp, hd]

/-- Witness for C7 at the non-proxy path `/api/v1/projects`. -/
theorem C7_passthrough_witness :
    proxyMiddleware baseStores (ctxFor "/api/v1/projects") ok200
      = .nextHandler (proxyReq "/api/v1/projects") :=
  C7_passthrough baseStores (ctxFor "/api/v1/projects") ok200 (by decide) (by decide) (by decide)

/-- C9: every scope resolver maps a key-not-found store result — including a
missing dashboard-embedded datasource key — to the 404 not-found error, and
any other storage failure to HTTP 500 whose client-visible message is the
constant "internal server error", independent of the failure's detail. -/
theorem C9_resolver_status_mapping (st : Stores) (projectName dashboardName name : String) :
    (st.globalDTS name = .error .keyNotFound →
      getGlobalDatasource st name = .error (dtsNotFoundErr name))
    ∧ (∀ d, st.globalDTS name = .error (.internalErr d) →
      getGlobalDatasource st name = .error ⟨500, "internal server error"⟩)
    ∧ (st.dts projectName name = .error .keyNotFound →
      getProjectDatasource st projectName name = .error (dtsNotFoundErr name))
    ∧ (∀ d, st.dts projectName name = .error (.internalErr d) →
      getProjectDatasource st projectName name = .error ⟨500, "internal server error"⟩)
    ∧ (st.dashboard projectName dashboardName = .error .keyNotFound →
      getDashboardDatasource st projectName dashboardName name = .error (dtsNotFoundErr name))
    ∧ (∀ d, st.dashboard projectName dashboardName = .error (.internalErr d) →
      getDashboardDatasource st projectName dashboardName name
        = .error ⟨500, "internal server error"⟩)
    ∧ (∀ db, st.dashboard projectName dashboardName = .ok db →
      assocFind db.datasources name = none →
      getDashboardDatasource st projectName dashboardName name
        = .error (dtsNotFoundErr name))
    ∧ (dtsNotFoundErr name).status = 404 := by
  refine ⟨?_, ?_, ?_, ?_, ?_, ?_, ?_, rfl⟩
  · intro h
    simp [getGlobalDatasource, h]
  · intro d h
    simp [getGlobalDatasource, h, internalServerErr]
  · intro h
    simp [getProjectDatasource, h]
  · intro d h
    simp [getProjectDatasource, h, internalServerErr]
  · intro h
    simp [getDashboardDatasource, h]
  · intro d h
    simp [getDashboardDatasource, h, internalServerErr]
  · intro db h1 h2
    simp [getDashboardDatasource, h1, h2]

/-- Witness for C9: with all-missing stores, the global datasource resolver
answers the 404 not-found error. -/
theorem C9_resolver_status_mapping_witness :
    getGlobalDatasource baseStores "g1" = .error (dtsNotFoundErr "g1") :=
  (C9_resolver_status_mapping baseStores "p1" "d1" "g1").1 rfl

/-- C10: without a secret the TLS configuration is exactly the zero
`tls.Config` with `MinVersion` TLS 1.2 (system trust store, no client cert,
no overrides); with a secret it is prometheus' `NewTLSConfig` applied to the
record derived from the secret's CA/cert/key (inline or file), server-name
override and skip-verify flag, with the version range pinned to
[TLS 1.2, TLS 1.3]; and a TLS-config build failure makes the transport
construction — and hence the serve call once past the gate and request
preparation — return HTTP 502. -/
theorem C10_tls_config (ntc : NewTLSConfigFn) (h : HttpProxy) :
    (h.secret = none → prepareTLSConfig ntc h = .ok defaultTLSConfig)
    ∧ (∀ s, h.secret = some s →
        prepareTLSConfig ntc h = ntc (promRecordOf s)
        ∧ (promRecordOf s).minVersion = versionTLS12
        ∧ (promRecordOf s).maxVersion = versionTLS13)
    ∧ (∀ e, prepareTLSConfig ntc h = .error e →
        prepareTransport ntc h = .error ⟨502, "unable build the tls config"⟩)
    ∧ (∀ (c : Ctx) (up : UpstreamFn) (e : String) (r : Request),
        h.config.allowedEndpoints = [] →
        prepareRequest h c = .ok r →
        prepareTLSConfig ntc h = .error e →
        serve ntc h c up = .err ⟨502, "unable build the tls config"⟩) := by
  refine ⟨?_, ?_, ?_, ?_⟩
  · intro hs
    simp [prepareTLSConfig, hs]
  · intro s hs
    exact ⟨by simp [prepareTLSConfig, hs, promRecordOf], rfl, rfl⟩
  · intro e he
    simp [prepareTransport, he]
  · intro c up e r hempty hpr he
    have hgate : (h.config.allowedEndpoints.length > 0
        && !isRequestAllowed h c.req.method) = false := by
      simp [hempty]
    have ht : prepareTransport ntc h = .error ⟨502, "unable build the tls config"⟩ := by
      simp [prepareTransport, he]
    simp only [serve, hgate, Bool.false_eq_true, if_false, hpr, ht]

/-- Witness for C10: a failing `NewTLSConfig` collaborator makes the serve
call for the secret-carrying descriptor `proxyTLSOnly` answer the 502. -/
theorem C10_tls_config_witness :
    serve badTLS proxyTLSOnly (ctxFor "/") ok200
      = .err ⟨502, "unable build the tls config"⟩ :=
  (C10_tls_config badTLS proxyTLSOnly).2.2.2 (ctxFor "/") ok200 "unreadable CA"
    ⟨"GET", "/", "", "upstream.example:9090",
      [("X-Real-Ip", "203.0.113.7"), ("X-Forwarded-Proto", "http")]⟩ rfl rfl rfl

/-! ## Scope-specific secret resolution (frame lemmas over the stores) -/

theorem proxyGlobal_ignores_projectSecretStore (st : Stores) (c : Ctx) (up : UpstreamFn)
    (ss : String → String → Except StoreErr SecretSpec) :
    proxyGlobalDatasource { st with secret := ss } c up = proxyGlobalDatasource st c up := by
  rfl

theorem proxyProject_ignores_globalSecretStore (st : Stores) (c : Ctx) (up : UpstreamFn)
    (gs : String → Except StoreErr SecretSpec) :
    proxyProjectDatasource { st with globalSecret := gs } c up
      = proxyProjectDatasource st c up := by
  rfl

theorem proxyDashboard_ignores_globalSecretStore (st : Stores) (c : Ctx) (up : UpstreamFn)
    (gs : String → Except StoreErr SecretSpec) :
    proxyDashboardDatasource { st with globalSecret := gs } c up
      = proxyDashboardDatasource st c up := by
  rfl

/-- C8: secret resolution is scope-specific: a request dispatched to the
global scope is insensitive to the project secret store (it reads only the
global one), and a request dispatched to the project or dashboard scope is
insensitive to the global secret store (it reads only the project one, keyed
by the datasource's project from the path). -/
theorem C8_scope_specific_secrets (st : Stores) (c : Ctx) (up : UpstreamFn)
    (ss : String → String → Except StoreErr SecretSpec)
    (gs : String → Except StoreErr SecretSpec) :
    (matchStringGlobal c.req.urlPath = true →
      proxyMiddleware { st with secret := ss } c up = proxyMiddleware st c up)
    ∧ (matchStringGlobal c.req.urlPath = false → matchStringProject c.req.urlPath = true →
      proxyMiddleware { st with globalSecret := gs } c up = proxyMiddleware st c up)
    ∧ (matchStringGlobal c.req.urlPath = false → matchStringProject c.req.urlPath = false →
      matchStringDashboard c.req.urlPath = true →
      proxyMiddleware { st with globalSecret := gs } c up = proxyMiddleware st c up) := by
  refine ⟨?_, ?_, ?_⟩
  · intro hg
    simp only [proxyMiddleware, hg, Bool.not_true, Bool.false_and, Bool.false_eq_true,
      if_false, if_true]
    exact proxyGlobal_ignores_projectSecretStore st c up ss
  · intro hg hp
    simp only [proxyMiddleware, hg, hp, Bool.not_true, Bool.not_false, Bool.true_and,
      Bool.false_and, Bool.and_false, Bool.false_eq_true, if_false, if_true]
    exact proxyProject_ignores_globalSecretStore st c up gs
  · intro hg hp hd
    simp only [proxyMiddleware, hg, hp, hd, Bool.not_true, Bool.not_false, Bool.true_and,
      Bool.and_false, Bool.false_eq_true, if_false, if_true]
    exact proxyDashboard_ignores_globalSecretStore st c up gs

/-- Witness for C8: on a global-scope path, replacing the whole project
secret store does not change the middleware's outcome. -/
theorem C8_scope_specific_secrets_witness :
    proxyMiddleware { storesWithSecret decOK with secret := altSecretStore }
        (ctxFor globalPath) ok200
      = proxyMiddleware (storesWithSecret decOK) (ctxFor globalPath) ok200 :=
  (C8_scope_specific_secrets (storesWithSecret decOK) (ctxFor globalPath) ok200
    altSecretStore altGlobalSecretStore).1 (by decide)

/-! ## The mishandled secret retrieval in `newProxy` -/

/-- C1 (code bug): when the project datasource `p1/prom1` names secret `s1`
and the project secret store reports it not found, the middleware never
answers the 404 "secret attached doesn't exist": the flipped nil test in
`newProxy` drops the 404, hands the nil secret to `crypto.Decrypt`, and the
call either ends in a bare 500 (decrypt error) or proceeds to proxy the
request with no secret at all — whatever the crypto collaborator does with
the nil pointer. -/
theorem C1_missing_secret_404_dropped (dec : Option SecretSpec → Except String Unit)
    (up : UpstreamFn) :
    (∀ m, proxyMiddleware (storesMissingSecret dec) (ctxFor projPath) up ≠ .err ⟨404, m⟩)
    ∧ (∀ e, dec none = .error e →
        proxyMiddleware (storesMissingSecret dec) (ctxFor projPath) up
          = .err ⟨500, "Internal Server Error"⟩)
    ∧ (dec none = .ok () →
        proxyMiddleware (storesMissingSecret dec) (ctxFor projPath) up
          = serve okTLS secretlessProxy (ctxFor projPath) up) := by
  have hexpose : proxyMiddleware (storesMissingSecret dec) (ctxFor projPath) up
      = dispatchProxy (storesMissingSecret dec) (ctxFor projPath) up
          (match dec none with
           | .error _ => (none, some ⟨500, "Internal Server Error"⟩)
           | .ok _ => (some ⟨cfgWithSecret, none, "/api/v1/query"⟩, none)) := rfl
  refine ⟨?_, ?_, ?_⟩
  · intro m
    rw [hexpose]
    cases hdec : dec none with
    | error e => simp [dispatchProxy]
    | ok u =>
      show serve (storesMissingSecret dec).newTLSConfig
          (⟨cfgWithSecret, none, "/api/v1/query"⟩ : HttpProxy) (ctxFor projPath) up
        ≠ .err ⟨404, m⟩
      exact serve_no_secret_outcomes (storesMissingSecret dec).newTLSConfig
        ⟨cfgWithSecret, none, "/api/v1/query"⟩ (ctxFor projPath) up rfl rfl
        ⟨"GET", projPath, "", "upstream.example:9090",
          [("X-Real-Ip", "203.0.113.7"), ("X-Forwarded-Proto", "http")]⟩ rfl ⟨404, m⟩
  · intro e hdec
    rw [hexpose, hdec]
    rfl
  · intro hdec
    rw [hexpose, hdec]
    rfl

/-- Witness for C1: with an always-succeeding crypto collaborator, the call
reduces to a secretless serve instead of the 404. -/
theorem C1_missing_secret_404_dropped_witness :
    proxyMiddleware (storesMissingSecret decOK) (ctxFor projPath) ok200
      = serve okTLS secretlessProxy (ctxFor projPath) ok200 :=
  (C1_missing_secret_404_dropped decOK ok200).2.2 rfl

/-- C2 (code bug): in the end-to-end happy path — request for
`/proxy/projects/p1/datasources/prom1/api/v1/query`, datasource `p1/prom1`
resolving with basic-auth secret `s1` (user `u`, pass `p`) that the secret
store returns successfully — the middleware panics (a `serve` call on the
nil proxy interface value that `newProxy` returns together with a nil error
on successful secret retrieval); the expected 200 with
`Authorization: Basic base64("u:p")` is never produced. -/
theorem C2_happy_path_panics (dec : Option SecretSpec → Except String Unit)
    (up : UpstreamFn) :
    proxyMiddleware (storesWithSecret dec) (ctxFor projPath) up = .panicked := by
  rfl

end PersesProxy
